import Mathlib

/-!
Verification of the DBT (Dual-Baseline Telemetry) scoring-and-ledger engine.

Shallow embedding of the repository's core modules:
* `server/lib/fraud.ts`   — residual/divergence computation and verdict cascade,
* `server/lib/glyphs.ts`  — state embedding table and domain configuration,
* `server/lib/proof.ts`   — append-only hash-chained proof ledger,
* `attached_assets/dbt_integrity_lib_*.ts` — per-actor integrity tracker,
* `server/routes.ts`      — the `/api/detect` and `/api/transition` handlers.

Modelling conventions: JavaScript numbers are modelled as real numbers `ℝ`;
timestamps (`Date.now()`) are passed in explicitly as a `now : ℕ` argument;
the mutable global `Map`/array singletons become explicit state values threaded
through the handlers; the SHA-256 digest from the external `node:crypto`
library is modelled as an arbitrary function (`Digest`) over the canonical
field encoding that `hashProofNode` builds, so every theorem about the ledger
holds for any digest function, SHA-256 included.
-/

set_option linter.unusedVariables false

namespace DBT

/-- Verdict type from `server/lib/fraud.ts` (`'VALID' | 'CAUTION' | 'SUSPICIOUS' | 'REJECT'`). -/
inductive Verdict where
  | VALID
  | CAUTION
  | SUSPICIOUS
  | REJECT
deriving DecidableEq

/-- `vectorDistance` from `server/lib/fraud.ts`: Euclidean distance over the
common prefix of the two vectors (the source loops `i < min(a.length, b.length)`,
which `List.zip` reproduces). -/
noncomputable def vectorDistance (a b : List ℝ) : ℝ :=
  Real.sqrt (((a.zip b).map (fun p => (p.1 - p.2) ^ 2)).sum)

/-- The `FORBIDDEN` pair list from `server/lib/fraud.ts`. -/
def FORBIDDEN : List (String × String) :=
  [("chaos", "peace"), ("conflict", "serenity")]

/-- `forbiddenTransition` from `server/lib/fraud.ts`: exact match of the ordered pair. -/
def forbiddenTransition (fromS toS : String) : Bool :=
  FORBIDDEN.any (fun p => p.1 == fromS && p.2 == toS)

/-- `temporalResidualFromDistance` from `server/lib/fraud.ts`: `Math.min(1, dist / CAP)`. -/
noncomputable def temporalResidualFromDistance (dist CAP : ℝ) : ℝ :=
  min 1 (dist / CAP)

/-- `logicResidualFromRule` from `server/lib/fraud.ts`: `forbidden ? 1 : 0`. -/
def logicResidualFromRule (forbidden : Bool) : ℝ :=
  if forbidden then 1 else 0

/-- `divergence` from `server/lib/fraud.ts`:
`sqrt(wL*dl² + wT*dt² + Σ_k 0.25*context_k²)`.  The JS `Record<string, number>`
context is modelled as an association list of named context dimensions. -/
noncomputable def divergence (deltaLogic deltaTemporal : ℝ)
    (context : List (String × ℝ)) (wL wT : ℝ) : ℝ :=
  Real.sqrt (wL * deltaLogic ^ 2 + wT * deltaTemporal ^ 2
    + ((context.map (fun p => p.2 ^ 2 * 0.25)).sum))

/-- `verdictFromDivergence` from `server/lib/fraud.ts`: the ordered threshold
cascade.  The `deltaTemporal` parameter is accepted (as in the source) but not
consulted by the cascade. -/
noncomputable def verdictFromDivergence (deltaLogic deltaTemporal div : ℝ) : Verdict :=
  if deltaLogic ≥ 1 then .REJECT
  else if div > 0.85 then .REJECT
  else if div > 0.65 then .SUSPICIOUS
  else if div > 0.45 then .CAUTION
  else .VALID

/-- The `EMBEDDINGS` object from `server/lib/glyphs.ts`, as the association
list of its (key, vector) entries in declaration order. -/
def EMBEDDINGS_LIST : List (String × List ℝ) :=
  [ ("chaos",    [0.1, 0.9, 0.8, 0.2]),
    ("conflict", [0.3, 0.7, 0.6, 0.4]),
    ("reflect",  [0.5, 0.5, 0.4, 0.6]),
    ("aligned",  [0.7, 0.3, 0.3, 0.7]),
    ("presence", [0.8, 0.2, 0.2, 0.8]),
    ("insight",  [0.9, 0.1, 0.1, 0.9]),
    ("peace",    [0.9, 0.0, 0.0, 1.0]),
    ("serenity", [1.0, 0.0, 0.0, 1.0]) ]

/-- Key lookup in the `EMBEDDINGS` object (`EMBEDDINGS[s]`, `s in EMBEDDINGS`). -/
def EMBEDDINGS (s : String) : Option (List ℝ) :=
  EMBEDDINGS_LIST.lookup s

/-- `getAllSymbolicStates` / `Object.keys(EMBEDDINGS)` from `server/lib/glyphs.ts`. -/
def getAllSymbolicStates : List String :=
  EMBEDDINGS_LIST.map Prod.fst

/-- `DOMAIN` constant from `server/lib/glyphs.ts`. -/
def DOMAIN : String := "symbolic.state"

/-- `ALPHA` EWMA smoothing factor from the integrity library. -/
def ALPHA : ℝ := 0.2

/-- `COLD_START_THRESHOLD` from the integrity library: interactions before full weighting. -/
def COLD_START_THRESHOLD : ℕ := 5

/-- `IntegrityRow` from the integrity library. -/
structure IntegrityRow where
  actorId : String
  domain : String
  integrity : ℝ
  lastUpdated : ℕ
  interactionCount : ℕ
  averageDivergence : ℝ

/-- The global `SKYLA_INTEGRITY : Map<string, IntegrityRow>`, modelled as a
lookup function from composite string keys to rows. -/
def IntegrityTable : Type := String → Option IntegrityRow

/-- The empty integrity table (`new Map()`). -/
def emptyTable : IntegrityTable := fun _ => none

/-- The composite `key` function from the integrity library:
string concatenation with the `::` delimiter, no escaping. -/
def key (actorId domain : String) : String :=
  actorId ++ "::" ++ domain

/-- `getIntegrity` from the integrity library: `row?.integrity ?? 0.85`.
A pure read — it consumes the table and returns a number, so it can neither
create a record nor modify one. -/
def getIntegrity (table : IntegrityTable) (actorId domain : String) : ℝ :=
  match table (key actorId domain) with
  | some row => row.integrity
  | none => 0.85

/-- `getIntegrityDetails` from the integrity library: plain lookup, `null` if absent. -/
def getIntegrityDetails (table : IntegrityTable) (actorId domain : String) :
    Option IntegrityRow :=
  table (key actorId domain)

/-- The cold-start factor computed inside `updateIntegrity`:
`Math.min(1, prevCount / COLD_START_THRESHOLD)`. -/
noncomputable def coldStartFactor (prevCount : ℕ) : ℝ :=
  min 1 ((prevCount : ℝ) / (COLD_START_THRESHOLD : ℝ))

/-- The adjusted penalty computed inside `updateIntegrity`:
`penalty * (0.3 + 0.7 * coldStartFactor)`. -/
noncomputable def adjustedPenalty (penalty : ℝ) (prevCount : ℕ) : ℝ :=
  penalty * (0.3 + 0.7 * coldStartFactor prevCount)

/-- `updateIntegrity` from the integrity library.  Returns the table with the
row for `key actorId domain` replaced (the `Map.set`) together with the new
integrity value that the source returns.  `now` stands for `Date.now()`. -/
noncomputable def updateIntegrity (table : IntegrityTable)
    (actorId domain : String) (div : ℝ) (now : ℕ) : IntegrityTable × ℝ :=
  let k := key actorId domain
  let prev := table k
  let prevI := match prev with | some r => r.integrity | none => 0.85
  let prevCount := match prev with | some r => r.interactionCount | none => 0
  let prevAvgDiv := match prev with | some r => r.averageDivergence | none => 0.3
  let penalty := min 1 div
  let adj := adjustedPenalty penalty prevCount
  let newI := (1 - ALPHA) * prevI + ALPHA * (1 - adj)
  let newAvgDiv := (1 - ALPHA) * prevAvgDiv + ALPHA * div
  let row : IntegrityRow :=
    { actorId := actorId, domain := domain,
      integrity := max 0.05 (min 1 newI),
      lastUpdated := now,
      interactionCount := prevCount + 1,
      averageDivergence := newAvgDiv }
  (fun k' => if k' = k then some row else table k', row.integrity)

/-- `resetIntegrity` from the integrity library: deletes the record entirely. -/
def resetIntegrity (table : IntegrityTable) (actorId domain : String) : IntegrityTable :=
  fun k' => if k' = key actorId domain then none else table k'

/-- The fields of a `ProofNode` other than `hash` (the `nodeWithoutHash` value
built inside `appendProof` in `server/lib/proof.ts`).  `from`/`to` are renamed
`fromState`/`toState` because `from` is reserved. -/
structure ProofNodeData where
  idx : ℕ
  fromState : String
  toState : String
  delta : ℝ
  prevHash : String
  deltaLogic : Option ℝ
  deltaTemporal : Option ℝ
  divergence : Option ℝ

/-- `ProofNode` from `server/lib/proof.ts`: the hashless fields plus `hash`. -/
structure ProofNode extends ProofNodeData where
  hash : String

/-- The deterministic canonical encoding hashed by `hashProofNode`: the tuple
of fields in the order the source interpolates them into the template string
`idx-from-to-delta-prevHash-(deltaLogic||0)-(deltaTemporal||0)-(divergence||0)`,
with a missing optional field canonicalized to 0 (the `|| 0`). -/
def canonicalData (d : ProofNodeData) :
    ℕ × String × String × ℝ × String × ℝ × ℝ × ℝ :=
  (d.idx, d.fromState, d.toState, d.delta, d.prevHash,
   d.deltaLogic.getD 0, d.deltaTemporal.getD 0, d.divergence.getD 0)

/-- A digest function over the canonical encoding.  This stands for the
external `crypto.createHash('sha256')` call: every theorem below is proved for
an arbitrary digest, so it holds for SHA-256 in particular. -/
def Digest : Type :=
  (ℕ × String × String × ℝ × String × ℝ × ℝ × ℝ) → String

/-- `hashProofNode` from `server/lib/proof.ts`: digest of the canonical encoding. -/
def hashProofNode (digest : Digest) (d : ProofNodeData) : String :=
  digest (canonicalData d)

/-- The `transition` argument of `appendProof` (all node fields except `idx`,
which `appendProof` computes, and `hash`). -/
structure AppendRequest where
  fromState : String
  toState : String
  delta : ℝ
  prevHash : String
  deltaLogic : Option ℝ
  deltaTemporal : Option ℝ
  divergence : Option ℝ

/-- The `nodeWithoutHash` object built inside `appendProof`:
`idx = chain.length` plus the transition's fields. -/
def nodeWithoutHash (chain : List ProofNode) (transition : AppendRequest) :
    ProofNodeData :=
  { idx := chain.length,
    fromState := transition.fromState,
    toState := transition.toState,
    delta := transition.delta,
    prevHash := transition.prevHash,
    deltaLogic := transition.deltaLogic,
    deltaTemporal := transition.deltaTemporal,
    divergence := transition.divergence }

/-- `appendProof` from `server/lib/proof.ts`: hash the hashless node and return
`[...chain, newNode]` — a fresh list, the input list untouched. -/
def appendProof (digest : Digest) (chain : List ProofNode)
    (transition : AppendRequest) : List ProofNode :=
  chain ++ [{ toProofNodeData := nodeWithoutHash chain transition,
              hash := hashProofNode digest (nodeWithoutHash chain transition) }]

/-- The genesis sentinel used by the `/api/transition` route. -/
def GENESIS : String := "GENESIS"

/-- The payload the `/api/transition` route feeds to `appendProof` (everything
except `prevHash`, which the route computes from the current chain tail). -/
structure ChainExtension where
  fromState : String
  toState : String
  delta : ℝ
  deltaLogic : Option ℝ
  deltaTemporal : Option ℝ
  divergence : Option ℝ

/-- The `prevHash` computation in `server/routes.ts` (lines 467-469): the tail
node's hash, or `"GENESIS"` for an empty chain. -/
def tailHash (chain : List ProofNode) : String :=
  match chain.getLast? with
  | some node => node.hash
  | none => GENESIS

/-- One accepted-transition chain extension as performed by the
`/api/transition` route (lines 467-479): compute `prevHash` from the tail and
call `appendProof`. -/
def extendChain (digest : Digest) (chain : List ProofNode)
    (t : ChainExtension) : List ProofNode :=
  appendProof digest chain
    { fromState := t.fromState,
      toState := t.toState,
      delta := t.delta,
      prevHash := tailHash chain,
      deltaLogic := t.deltaLogic,
      deltaTemporal := t.deltaTemporal,
      divergence := t.divergence }

/-- The chain obtained by starting from the empty chain and performing the
given accepted transitions in order. -/
def builtChain (digest : Digest) (ts : List ChainExtension) : List ProofNode :=
  ts.foldl (extendChain digest) []

/-- The chain's structural invariant: node at position `i` carries `idx = i`,
node 0 links to the genesis sentinel, and every later node's `prevHash` is the
hash of its predecessor. -/
def chainOk (chain : List ProofNode) : Prop :=
  (∀ i n, chain.get? i = some n → n.idx = i)
  ∧ (∀ n, chain.get? 0 = some n → n.prevHash = GENESIS)
  ∧ (∀ i n m, chain.get? (i + 1) = some n → chain.get? i = some m →
      n.prevHash = m.hash)

/-- A concrete digest function used to instantiate the digest-parametric
ledger theorems on concrete inputs. -/
def exDigest : Digest := fun _ => "d"

/-- A concrete chain-extension payload for instantiations. -/
def exExt : ChainExtension :=
  { fromState := "chaos", toState := "conflict", delta := 0,
    deltaLogic := some 0, deltaTemporal := some 0, divergence := some 0 }

/-- A concrete `appendProof` argument for instantiations. -/
def exReq : AppendRequest :=
  { fromState := "chaos", toState := "conflict", delta := 0,
    prevHash := "GENESIS", deltaLogic := none, deltaTemporal := none,
    divergence := none }

/-- The node `appendProof exDigest [] exReq` appends. -/
def exNode : ProofNode :=
  { toProofNodeData := nodeWithoutHash [] exReq,
    hash := hashProofNode exDigest (nodeWithoutHash [] exReq) }

/-- The `400` validation-error payload of the DBT routes:
`{ error: "Invalid symbolic states", available: Object.keys(EMBEDDINGS) }`. -/
structure ValidationError where
  error : String
  available : List String

/-- The mutable server state the routes touch: the global proof chain
(`SKYLA_CHAIN`) and the global integrity table (`SKYLA_INTEGRITY`). -/
structure ServerState where
  chain : List ProofNode
  table : IntegrityTable

/-- The response of `/api/detect` (the fields the specification constrains). -/
structure DetectResponse where
  dist : ℝ
  logicResidual : ℝ
  temporalResidual : ℝ
  divergence : ℝ
  verdict : Verdict
  consensusStrength : ℝ
  integrityA : ℝ
  integrityB : ℝ
  interactionsA : ℕ
  interactionsB : ℕ
  averageDivergenceA : ℝ
  averageDivergenceB : ℝ

/-- The `/api/detect` handler from `server/routes.ts` (lines 298-402):
validate the state names, compute the residual pipeline, read (never update)
the two actors' integrity records, and answer.  It consumes the state and
returns only a response, so it cannot mutate anything. -/
noncomputable def handleDetect (st : ServerState)
    (fromS toS actorA actorB domain : String) :
    Except ValidationError DetectResponse :=
  match EMBEDDINGS fromS, EMBEDDINGS toS with
  | some ea, some eb =>
      let dist := vectorDistance ea eb
      let isForbidden := forbiddenTransition fromS toS
      let deltaLogic := logicResidualFromRule isForbidden
      let deltaTemporal := temporalResidualFromDistance dist 5
      let div := divergence deltaLogic deltaTemporal [] 0.6 0.4
      let verdict := verdictFromDivergence deltaLogic deltaTemporal div
      let detailsA := getIntegrityDetails st.table actorA domain
      let detailsB := getIntegrityDetails st.table actorB domain
      .ok { dist := dist,
            logicResidual := deltaLogic,
            temporalResidual := deltaTemporal,
            divergence := div,
            verdict := verdict,
            consensusStrength := max 0 (min 1 (1 - div)),
            integrityA := getIntegrity st.table actorA domain,
            integrityB := getIntegrity st.table actorB domain,
            interactionsA := (match detailsA with
                              | some r => r.interactionCount
                              | none => 0),
            interactionsB := (match detailsB with
                              | some r => r.interactionCount
                              | none => 0),
            averageDivergenceA := (match detailsA with
                                   | some r => r.averageDivergence
                                   | none => 0.3),
            averageDivergenceB := (match detailsB with
                                   | some r => r.averageDivergence
                                   | none => 0.3) }
  | _, _ => .error { error := "Invalid symbolic states",
                     available := getAllSymbolicStates }

/-- The response of `/api/transition` (the fields the specification
constrains; `proofHash`, `proofIndex`, `chainLength` and `newState` are absent
from the rejection response, hence optional). -/
structure TransitionResponse where
  ok : Bool
  logicResidual : ℝ
  temporalResidual : ℝ
  divergence : ℝ
  verdict : Verdict
  beforeA : ℝ
  afterA : ℝ
  beforeB : ℝ
  afterB : ℝ
  chainExtended : Bool
  proofHash : Option String
  proofIndex : Option ℕ
  chainLength : Option ℕ
  newState : Option String

/-- The `/api/transition` handler from `server/routes.ts` (lines 404-527):
validate, compute the pipeline, then — on REJECT — update both actors'
integrity (counterpart at `min(div*0.3, 1)`) without touching the chain and
answer `ok: false, chainExtended: false`; otherwise extend the proof chain,
update both actors' integrity (counterpart at `min(div*0.5, 1)`) and answer
`ok: true, chainExtended: true`. -/
noncomputable def handleTransition (digest : Digest) (st : ServerState)
    (fromS toS actorA actorB domain : String) (now : ℕ) :
    Except ValidationError (ServerState × TransitionResponse) :=
  match EMBEDDINGS fromS, EMBEDDINGS toS with
  | some ea, some eb =>
      let dist := vectorDistance ea eb
      let isForbidden := forbiddenTransition fromS toS
      let deltaLogic := logicResidualFromRule isForbidden
      let deltaTemporal := temporalResidualFromDistance dist 5
      let div := divergence deltaLogic deltaTemporal [] 0.6 0.4
      let verdict := verdictFromDivergence deltaLogic deltaTemporal div
      let preA := getIntegrity st.table actorA domain
      let preB := getIntegrity st.table actorB domain
      if verdict = .REJECT then
        let u1 := updateIntegrity st.table actorA domain div now
        let u2 := updateIntegrity u1.1 actorB domain (min (div * 0.3) 1) now
        .ok ({ chain := st.chain, table := u2.1 },
             { ok := false,
               logicResidual := deltaLogic,
               temporalResidual := deltaTemporal,
               divergence := div,
               verdict := verdict,
               beforeA := preA, afterA := u1.2,
               beforeB := preB, afterB := u2.2,
               chainExtended := false,
               proofHash := none, proofIndex := none,
               chainLength := none, newState := none })
      else
        let chain2 := extendChain digest st.chain
          { fromState := fromS, toState := toS, delta := dist,
            deltaLogic := some deltaLogic,
            deltaTemporal := some deltaTemporal,
            divergence := some div }
        let u1 := updateIntegrity st.table actorA domain div now
        let u2 := updateIntegrity u1.1 actorB domain (min (div * 0.5) 1) now
        .ok ({ chain := chain2, table := u2.1 },
             { ok := true,
               logicResidual := deltaLogic,
               temporalResidual := deltaTemporal,
               divergence := div,
               verdict := verdict,
               beforeA := preA, afterA := u1.2,
               beforeB := preB, afterB := u2.2,
               chainExtended := true,
               proofHash := (chain2.getLast?).map (fun n => n.hash),
               proofIndex := (chain2.getLast?).map (fun n => n.idx),
               chainLength := some chain2.length,
               newState := some toS })
  | _, _ => .error { error := "Invalid symbolic states",
                     available := getAllSymbolicStates }

/-- Projection: the server state of a successful transition, if any. -/
def okState (r : Except ValidationError (ServerState × TransitionResponse)) :
    Option ServerState :=
  match r with
  | .ok (st, _) => some st
  | .error _ => none

/-- Projection: the response of a successful transition, if any. -/
def okResp (r : Except ValidationError (ServerState × TransitionResponse)) :
    Option TransitionResponse :=
  match r with
  | .ok (_, resp) => some resp
  | .error _ => none

/-- Whether an `Except` result is a success. -/
def exceptIsOk {ε α : Type} (r : Except ε α) : Bool :=
  match r with
  | .ok _ => true
  | .error _ => false

/-- Concrete pipeline values for the chaos→conflict transition, used to
instantiate the handler theorems. -/
noncomputable def exDist : ℝ :=
  vectorDistance [0.1, 0.9, 0.8, 0.2] [0.3, 0.7, 0.6, 0.4]

/-- Logic residual of the chaos→conflict transition. -/
def exDl : ℝ :=
  logicResidualFromRule (forbiddenTransition "chaos" "conflict")

/-- Temporal residual of the chaos→conflict transition. -/
noncomputable def exDt : ℝ :=
  temporalResidualFromDistance exDist 5

/-- Divergence of the chaos→conflict transition. -/
noncomputable def exDiv : ℝ :=
  divergence exDl exDt [] 0.6 0.4

/-- Verdict of the chaos→conflict transition. -/
noncomputable def exVerdict : Verdict :=
  verdictFromDivergence exDl exDt exDiv

/-- C1: the verdict is computed by the ordered cascade — a hard logic violation
(`logicResidual ≥ 1`) always rejects; otherwise `divergence > 0.85` rejects,
`divergence > 0.65` is SUSPICIOUS, `divergence > 0.45` is CAUTION, and anything
else is VALID; the comparisons are strict, so divergence exactly `0.85` is not
REJECT and exactly `0.45` is not CAUTION. -/
theorem verdict_cascade (dl dt d : ℝ) :
    (1 ≤ dl → verdictFromDivergence dl dt d = .REJECT)
    ∧ (dl < 1 → 0.85 < d → verdictFromDivergence dl dt d = .REJECT)
    ∧ (dl < 1 → 0.65 < d → d ≤ 0.85 → verdictFromDivergence dl dt d = .SUSPICIOUS)
    ∧ (dl < 1 → 0.45 < d → d ≤ 0.65 → verdictFromDivergence dl dt d = .CAUTION)
    ∧ (dl < 1 → d ≤ 0.45 → verdictFromDivergence dl dt d = .VALID)
    ∧ (dl < 1 → verdictFromDivergence dl dt 0.85 ≠ .REJECT)
    ∧ (dl < 1 → verdictFromDivergence dl dt 0.45 ≠ .CAUTION) := by
  unfold verdictFromDivergence
  refine ⟨?_, ?_, ?_, ?_, ?_, ?_, ?_⟩ <;> intros <;> split_ifs <;>
    first
      | rfl
      | decide
      | linarith

/-- Concrete instantiation of `verdict_cascade`, discharging each hypothesis
at explicit numeric inputs. -/
theorem verdict_cascade_witness :
    verdictFromDivergence 2 0 0.1 = .REJECT
    ∧ verdictFromDivergence 0 0 0.9 = .REJECT
    ∧ verdictFromDivergence 0 0 0.7 = .SUSPICIOUS
    ∧ verdictFromDivergence 0 0 0.5 = .CAUTION
    ∧ verdictFromDivergence 0 0 0.1 = .VALID
    ∧ verdictFromDivergence 0 0 0.85 ≠ .REJECT
    ∧ verdictFromDivergence 0 0 0.45 ≠ .CAUTION :=
  ⟨(verdict_cascade 2 0 0.1).1 (by norm_num),
   (verdict_cascade 0 0 0.9).2.1 (by norm_num) (by norm_num),
   (verdict_cascade 0 0 0.7).2.2.1 (by norm_num) (by norm_num) (by norm_num),
   (verdict_cascade 0 0 0.5).2.2.2.1 (by norm_num) (by norm_num) (by norm_num),
   (verdict_cascade 0 0 0.1).2.2.2.2.1 (by norm_num) (by norm_num),
   (verdict_cascade 0 0 0).2.2.2.2.2.1 (by norm_num),
   (verdict_cascade 0 0 0).2.2.2.2.2.2 (by norm_num)⟩

/-- C4: after any `updateIntegrity` call, the stored (and returned) integrity
lies in `[0.05, 1]`, the stored `interactionCount` is exactly the prior count
plus one, and no other key of the table is touched.  The read operations
(`getIntegrity`, `getIntegrityDetails`) are pure lookups by construction: they
return a number (resp. an optional row) and no table, so they can neither
create records nor change any field. -/
theorem updateIntegrity_invariants (table : IntegrityTable) (a d : String)
    (div : ℝ) (now : ℕ) :
    (0.05 ≤ (updateIntegrity table a d div now).2
      ∧ (updateIntegrity table a d div now).2 ≤ 1)
    ∧ ((updateIntegrity table a d div now).1 (key a d)).map IntegrityRow.integrity
        = some (updateIntegrity table a d div now).2
    ∧ ((updateIntegrity table a d div now).1 (key a d)).map IntegrityRow.interactionCount
        = some ((match table (key a d) with
                  | some r => r.interactionCount
                  | none => 0) + 1)
    ∧ (∀ k, k ≠ key a d → (updateIntegrity table a d div now).1 k = table k) := by
  unfold updateIntegrity
  refine ⟨⟨le_max_left _ _, max_le (by norm_num) (min_le_left _ _)⟩, ?_, ?_, ?_⟩
  · simp
  · simp
  · intro k hk
    simp [hk]

/-- Instantiation of `updateIntegrity_invariants` on the empty table,
discharging the `k ≠ key a d` hypothesis at a concrete key. -/
theorem updateIntegrity_invariants_witness :
    (0.05 ≤ (updateIntegrity emptyTable "a" "b" 1 0).2
      ∧ (updateIntegrity emptyTable "a" "b" 1 0).2 ≤ 1)
    ∧ (updateIntegrity emptyTable "a" "b" 1 0).1 "zzz" = emptyTable "zzz" :=
  ⟨(updateIntegrity_invariants emptyTable "a" "b" 1 0).1,
   (updateIntegrity_invariants emptyTable "a" "b" 1 0).2.2.2 "zzz" (by decide)⟩

/-- C6: with penalty `p = min 1 div`, a record with prior interaction count 0
gets adjusted penalty exactly `0.3 * p`, and once the prior count reaches
`COLD_START_THRESHOLD` (which is 5) the adjusted penalty is exactly `p`. -/
theorem coldstart_penalty (div : ℝ) (count : ℕ) :
    COLD_START_THRESHOLD = 5
    ∧ adjustedPenalty (min 1 div) 0 = 0.3 * min 1 div
    ∧ (COLD_START_THRESHOLD ≤ count → adjustedPenalty (min 1 div) count = min 1 div) := by
  refine ⟨rfl, ?_, ?_⟩
  · unfold adjustedPenalty coldStartFactor
    norm_num
    ring
  · intro h
    unfold adjustedPenalty coldStartFactor
    unfold COLD_START_THRESHOLD at h ⊢
    have h5 : (5 : ℝ) ≤ (count : ℝ) := by exact_mod_cast h
    have h1 : (1 : ℝ) ≤ (count : ℝ) / (5 : ℕ) := by
      rw [le_div_iff₀ (by norm_num)]
      push_cast
      linarith
    rw [min_eq_left h1]
    ring

/-- Instantiation of `coldstart_penalty` at `div = 1`, `count = 7`. -/
theorem coldstart_penalty_witness :
    adjustedPenalty (min 1 (1 : ℝ)) 0 = 0.3 * min 1 (1 : ℝ)
    ∧ adjustedPenalty (min 1 (1 : ℝ)) 7 = min 1 (1 : ℝ) :=
  ⟨(coldstart_penalty 1 7).2.1, (coldstart_penalty 1 7).2.2 (by decide)⟩

/-- C10: the composite key is unescaped string concatenation with `::`, so the
distinct identifier pairs (`"a::b"`, `"c"`) and (`"a"`, `"b::c"`) address the
same record — an update under the first key changes what a read under the
second key returns. -/
theorem key_delimiter_collision :
    key "a::b" "c" = key "a" "b::c"
    ∧ getIntegrity ((updateIntegrity emptyTable "a::b" "c" 1 0).1) "a" "b::c"
        ≠ getIntegrity emptyTable "a" "b::c" := by
  refine ⟨rfl, ?_⟩
  have hkey : key "a" "b::c" = key "a::b" "c" := rfl
  unfold getIntegrity updateIntegrity emptyTable
  dsimp only
  rw [if_pos hkey]
  unfold adjustedPenalty coldStartFactor ALPHA COLD_START_THRESHOLD
  norm_num

/-- Helper: `tailHash` of a chain whose last valid index is `i` is the hash of
the node at `i`. -/
theorem tailHash_last (l : List ProofNode) (i : ℕ) (m : ProofNode)
    (hi : i + 1 = l.length) (hm : l.get? i = some m) :
    tailHash l = m.hash := by
  unfold tailHash
  rw [List.getLast?_eq_get?]
  have h1 : l.length - 1 = i := by omega
  rw [h1, hm]

/-- Helper: the empty chain satisfies the invariant. -/
theorem chainOk_nil : chainOk [] := by
  refine ⟨?_, ?_, ?_⟩ <;> intro i <;> intros <;> simp_all

/-- Helper: appending a node whose `idx` is the chain length and whose
`prevHash` is the tail hash preserves the invariant. -/
theorem chainOk_concat (chain : List ProofNode) (n : ProofNode)
    (hok : chainOk chain) (hidxn : n.idx = chain.length)
    (hprevn : n.prevHash = tailHash chain) :
    chainOk (chain ++ [n]) := by
  obtain ⟨hidx, hgen, hlink⟩ := hok
  refine ⟨?_, ?_, ?_⟩
  · intro i nd h
    rcases Nat.lt_trichotomy i chain.length with hlt | heq | hgt
    · rw [List.get?_append hlt] at h
      exact hidx i nd h
    · subst heq
      rw [List.get?_concat_length] at h
      cases h
      exact hidxn
    · have : (chain ++ [n]).length ≤ i := by
        simp only [List.length_append, List.length_singleton]
        omega
      rw [← List.get?_eq_none] at this
      rw [this] at h
      cases h
  · intro nd h
    rcases Nat.eq_zero_or_pos chain.length with hz | hpos
    · have hcn : chain = [] := List.length_eq_zero.mp hz
      subst hcn
      simp only [List.nil_append, List.get?] at h
      cases h
      rw [hprevn]
      rfl
    · rw [List.get?_append hpos] at h
      exact hgen nd h
  · intro i nd md hn hm
    rcases Nat.lt_trichotomy (i + 1) chain.length with hlt | heq | hgt
    · rw [List.get?_append hlt] at hn
      rw [List.get?_append (by omega)] at hm
      exact hlink i nd md hn hm
    · rw [heq, List.get?_concat_length] at hn
      cases hn
      rw [List.get?_append (by omega)] at hm
      rw [hprevn]
      exact tailHash_last chain i md heq hm
    · have : (chain ++ [n]).length ≤ i + 1 := by
        simp only [List.length_append, List.length_singleton]
        omega
      rw [← List.get?_eq_none] at this
      rw [this] at hn
      cases hn
/-- Helper: the chain-extension step of the `/api/transition` route preserves
the invariant. -/
theorem chainOk_extend (digest : Digest) (chain : List ProofNode)
    (t : ChainExtension) (hok : chainOk chain) :
    chainOk (extendChain digest chain t) :=
  chainOk_concat chain _ hok rfl rfl

/-- Helper: folding chain extensions adds one node per transition. -/
theorem foldl_extend_length (digest : Digest) (ts : List ChainExtension)
    (chain : List ProofNode) :
    (ts.foldl (extendChain digest) chain).length = chain.length + ts.length := by
  induction ts generalizing chain with
  | nil => simp
  | cons t ts ih =>
      simp only [List.foldl_cons, ih, List.length_cons]
      simp only [extendChain, appendProof, List.length_append, List.length_singleton]
      omega

/-- Helper: folding chain extensions preserves the invariant. -/
theorem foldl_extend_chainOk (digest : Digest) (ts : List ChainExtension)
    (chain : List ProofNode) (hok : chainOk chain) :
    chainOk (ts.foldl (extendChain digest) chain) := by
  induction ts generalizing chain with
  | nil => exact hok
  | cons t ts ih =>
      exact ih (extendChain digest chain t) (chainOk_extend digest chain t hok)

/-- C2: a chain built from the empty chain by N accepted transitions (each
computing `prevHash` from the current tail and calling `appendProof`) has
length N, carries `idx` values `0..N-1` in order with no gaps, links node 0 to
the `"GENESIS"` sentinel, links every later node's `prevHash` to its
predecessor's `hash`, and each extension returns the input chain plus exactly
one node (the input chain itself is never modified). -/
theorem ledger_chain_invariants (digest : Digest) (ts : List ChainExtension) :
    (builtChain digest ts).length = ts.length
    ∧ (∀ i n, (builtChain digest ts).get? i = some n → n.idx = i)
    ∧ (∀ n, (builtChain digest ts).get? 0 = some n → n.prevHash = GENESIS)
    ∧ (∀ i n m, (builtChain digest ts).get? (i + 1) = some n →
        (builtChain digest ts).get? i = some m → n.prevHash = m.hash)
    ∧ (∀ (chain : List ProofNode) (t : ChainExtension),
        ∃ node, extendChain digest chain t = chain ++ [node]) := by
  have hok := foldl_extend_chainOk digest ts [] chainOk_nil
  exact ⟨by simpa using foldl_extend_length digest ts [],
    hok.1, hok.2.1, hok.2.2, fun chain t => ⟨_, rfl⟩⟩

/-- Instantiation of `ledger_chain_invariants` on a two-transition chain,
discharging the positional hypotheses at concrete indices. -/
theorem ledger_chain_invariants_witness :
    (builtChain exDigest [exExt, exExt]).length = 2
    ∧ ((builtChain exDigest [exExt, exExt]).get? 0).map (fun n => n.prevHash)
        = some GENESIS
    ∧ ((builtChain exDigest [exExt, exExt]).get? 1).map (fun n => n.idx) = some 1
    ∧ ((builtChain exDigest [exExt, exExt]).get? 1).map (fun n => n.prevHash)
        = ((builtChain exDigest [exExt, exExt]).get? 0).map (fun n => n.hash) := by
  have h := ledger_chain_invariants exDigest [exExt, exExt]
  refine ⟨h.1, ?_, ?_, ?_⟩
  · cases hc : (builtChain exDigest [exExt, exExt]).get? 0 with
    | none =>
        rw [List.get?_eq_none, h.1] at hc
        simp at hc
    | some n =>
        simpa using h.2.2.1 n hc
  · cases hc : (builtChain exDigest [exExt, exExt]).get? 1 with
    | none =>
        rw [List.get?_eq_none, h.1] at hc
        simp at hc
    | some n =>
        simpa using h.2.1 1 n hc
  · cases hc1 : (builtChain exDigest [exExt, exExt]).get? 1 with
    | none =>
        rw [List.get?_eq_none, h.1] at hc1
        simp at hc1
    | some n =>
        cases hc0 : (builtChain exDigest [exExt, exExt]).get? 0 with
        | none =>
            rw [List.get?_eq_none, h.1] at hc0
            simp at hc0
        | some m =>
            simpa using h.2.2.2.1 0 n m hc1 hc0

/-- C3: every node produced by `appendProof` stores exactly the digest of the
canonical encoding of its own fields (recomputing the digest over the stored
fields reproduces the stored hash), and a missing optional field canonicalizes
to 0, so a node with `deltaLogic` absent hashes identically to the same node
with `deltaLogic = 0`. -/
theorem hash_roundtrip (digest : Digest) (chain : List ProofNode)
    (tr : AppendRequest) :
    (∀ node, appendProof digest chain tr = chain ++ [node] →
      hashProofNode digest node.toProofNodeData = node.hash)
    ∧ (∀ d : ProofNodeData,
        hashProofNode digest { d with deltaLogic := none }
          = hashProofNode digest { d with deltaLogic := some 0 }) := by
  constructor
  · intro node h
    unfold appendProof at h
    have hnode := List.append_cancel_left h
    rw [List.cons_eq_cons] at hnode
    rw [← hnode.1]
  · intro d
    rfl

/-- Instantiation of `hash_roundtrip` on a concrete append, discharging the
shape hypothesis by computation. -/
theorem hash_roundtrip_witness :
    hashProofNode exDigest exNode.toProofNodeData = exNode.hash :=
  (hash_roundtrip exDigest [] exReq).1 exNode rfl

/-- C5: on every valid transition request the integrity tracker is updated for
both actors regardless of verdict — `actorA` with the full observed divergence
and then `actorB` with `min(div*0.3, 1)` when the verdict is REJECT and
`min(div*0.5, 1)` otherwise — while the proof chain is extended if and only if
the verdict is not REJECT, and the response reports `chainExtended`
accordingly. -/
theorem transition_updates_both_actors
    (digest : Digest) (st : ServerState)
    (fromS toS actorA actorB domain : String) (now : ℕ)
    (ea eb : List ℝ) (dist dl dt div : ℝ) (verdict : Verdict)
    (hf : EMBEDDINGS fromS = some ea) (ht : EMBEDDINGS toS = some eb)
    (hdist : dist = vectorDistance ea eb)
    (hdl : dl = logicResidualFromRule (forbiddenTransition fromS toS))
    (hdt : dt = temporalResidualFromDistance dist 5)
    (hdiv : div = divergence dl dt [] 0.6 0.4)
    (hv : verdict = verdictFromDivergence dl dt div) :
    (okState (handleTransition digest st fromS toS actorA actorB domain now)).map
        (fun s => s.table)
      = some (updateIntegrity
          (updateIntegrity st.table actorA domain div now).1 actorB domain
          (min (div * (if verdict = .REJECT then 0.3 else 0.5)) 1) now).1
    ∧ (okState (handleTransition digest st fromS toS actorA actorB domain now)).map
        (fun s => s.chain)
      = some (if verdict = .REJECT then st.chain
              else extendChain digest st.chain
                { fromState := fromS, toState := toS, delta := dist,
                  deltaLogic := some dl, deltaTemporal := some dt,
                  divergence := some div })
    ∧ (okResp (handleTransition digest st fromS toS actorA actorB domain now)).map
        (fun r => r.chainExtended)
      = some (if verdict = .REJECT then false else true) := by
  subst hv hdiv hdt hdl hdist
  unfold handleTransition okState okResp
  rw [hf, ht]
  dsimp only
  split_ifs with h <;> simp

/-- Instantiation of `transition_updates_both_actors` on the chaos→conflict
transition from the empty server state, discharging every pipeline hypothesis
by computation. -/
theorem transition_updates_both_actors_witness :
    (okState (handleTransition exDigest ⟨[], emptyTable⟩
        "chaos" "conflict" "a" "b" "dom" 0)).map (fun s => s.table)
      = some (updateIntegrity
          (updateIntegrity emptyTable "a" "dom" exDiv 0).1 "b" "dom"
          (min (exDiv * (if exVerdict = .REJECT then 0.3 else 0.5)) 1) 0).1
    ∧ (okState (handleTransition exDigest ⟨[], emptyTable⟩
        "chaos" "conflict" "a" "b" "dom" 0)).map (fun s => s.chain)
      = some (if exVerdict = .REJECT then ([] : List ProofNode)
              else extendChain exDigest []
                { fromState := "chaos", toState := "conflict", delta := exDist,
                  deltaLogic := some exDl, deltaTemporal := some exDt,
                  divergence := some exDiv })
    ∧ (okResp (handleTransition exDigest ⟨[], emptyTable⟩
        "chaos" "conflict" "a" "b" "dom" 0)).map (fun r => r.chainExtended)
      = some (if exVerdict = .REJECT then false else true) :=
  transition_updates_both_actors exDigest ⟨[], emptyTable⟩
    "chaos" "conflict" "a" "b" "dom" 0
    [0.1, 0.9, 0.8, 0.2] [0.3, 0.7, 0.6, 0.4]
    exDist exDl exDt exDiv exVerdict rfl rfl rfl rfl rfl rfl rfl

/-- Helper: an association-list lookup succeeds exactly on the listed keys. -/
theorem lookup_isSome_iff_mem_keys (l : List (String × List ℝ)) (a : String) :
    (l.lookup a).isSome = true ↔ a ∈ l.map Prod.fst := by
  induction l with
  | nil => simp [List.lookup]
  | cons p l ih =>
      rw [List.lookup]
      by_cases h : a == p.1
      · rw [show (a == p.1) = true from h]
        simp only [List.map_cons, List.mem_cons, Option.isSome_some, true_iff]
        exact Or.inl (eq_of_beq h)
      · rw [show (a == p.1) = false from by simpa using h]
        simp only [List.map_cons, List.mem_cons, ih]
        constructor
        · exact Or.inr
        · rintro (hh | hh)
          · have hb : (a == p.1) = true := by
              rw [hh]
              exact beq_self_eq_true p.1
            exact absurd hb h
          · exact hh

/-- C9: a detect or transition request whose `from` or `to` is not a
configured state name fails with the validation error that enumerates exactly
the valid state names (and, returning through the error branch, performs no
residual computation and no state mutation — the error carries no new server
state); on configured state names both handlers always succeed. -/
theorem state_name_validation :
    (∀ (digest : Digest) (st : ServerState) (fromS toS aA aB dom : String)
        (now : ℕ),
      EMBEDDINGS fromS = none ∨ EMBEDDINGS toS = none →
        handleDetect st fromS toS aA aB dom
            = .error { error := "Invalid symbolic states",
                       available := getAllSymbolicStates }
          ∧ handleTransition digest st fromS toS aA aB dom now
            = .error { error := "Invalid symbolic states",
                       available := getAllSymbolicStates })
    ∧ (∀ (digest : Digest) (st : ServerState) (fromS toS aA aB dom : String)
        (now : ℕ) (ea eb : List ℝ),
        EMBEDDINGS fromS = some ea → EMBEDDINGS toS = some eb →
          exceptIsOk (handleDetect st fromS toS aA aB dom) = true
          ∧ exceptIsOk (handleTransition digest st fromS toS aA aB dom now)
              = true)
    ∧ (∀ s, (EMBEDDINGS s).isSome = true ↔ s ∈ getAllSymbolicStates) := by
  refine ⟨?_, ?_, ?_⟩
  · intro digest st fromS toS aA aB dom now h
    rcases h with h | h
    · cases h2 : EMBEDDINGS toS <;>
        simp [handleDetect, handleTransition, h, h2]
    · cases h2 : EMBEDDINGS fromS <;>
        simp [handleDetect, handleTransition, h, h2]
  · intro digest st fromS toS aA aB dom now ea eb hf ht
    unfold handleDetect handleTransition
    rw [hf, ht]
    dsimp only
    constructor
    · rfl
    · split_ifs <;> rfl
  · intro s
    exact lookup_isSome_iff_mem_keys EMBEDDINGS_LIST s

/-- Instantiation of `state_name_validation` at the unknown state `"nope"` and
the known pair chaos→conflict. -/
theorem state_name_validation_witness :
    handleDetect ⟨[], emptyTable⟩ "nope" "chaos" "a" "b" "dom"
        = .error { error := "Invalid symbolic states",
                   available := getAllSymbolicStates }
    ∧ exceptIsOk (handleDetect ⟨[], emptyTable⟩ "chaos" "conflict" "a" "b" "dom")
        = true
    ∧ exceptIsOk (handleTransition exDigest ⟨[], emptyTable⟩
        "chaos" "conflict" "a" "b" "dom" 0) = true
    ∧ "chaos" ∈ getAllSymbolicStates :=
  ⟨(state_name_validation.1 exDigest ⟨[], emptyTable⟩ "nope" "chaos" "a" "b"
      "dom" 0 (Or.inl rfl)).1,
   (state_name_validation.2.1 exDigest ⟨[], emptyTable⟩ "chaos" "conflict"
      "a" "b" "dom" 0 _ _ rfl rfl).1,
   (state_name_validation.2.1 exDigest ⟨[], emptyTable⟩ "chaos" "conflict"
      "a" "b" "dom" 0 _ _ rfl rfl).2,
   (state_name_validation.2.2 "chaos").mp rfl⟩

/-- C8: the divergence scalar is monotonically non-decreasing in the logic
residual (temporal residual and context held fixed) and in the temporal
residual (logic residual and context held fixed), for non-negative residual
inputs, at the default weights `wL = 0.6`, `wT = 0.4`. -/
theorem divergence_monotone (dl dl' dt dt' : ℝ) (ctx : List (String × ℝ)) :
    (0 ≤ dl → dl ≤ dl' →
      divergence dl dt ctx 0.6 0.4 ≤ divergence dl' dt ctx 0.6 0.4)
    ∧ (0 ≤ dt → dt ≤ dt' →
      divergence dl dt ctx 0.6 0.4 ≤ divergence dl dt' ctx 0.6 0.4) := by
  constructor <;> intro h1 h2 <;>
  · unfold divergence
    apply Real.sqrt_le_sqrt
    have hp := pow_le_pow_left h1 h2 2
    linarith

/-- Instantiation of `divergence_monotone` at concrete residual values. -/
theorem divergence_monotone_witness :
    divergence 0 0 [] 0.6 0.4 ≤ divergence 1 0 [] 0.6 0.4
    ∧ divergence 0 0 [] 0.6 0.4 ≤ divergence 0 1 [] 0.6 0.4 :=
  ⟨(divergence_monotone 0 1 0 0 []).1 (by norm_num) (by norm_num),
   (divergence_monotone 0 0 0 1 []).2 (by norm_num) (by norm_num)⟩

/-- Helper: the chaos→conflict raw distance is exactly 0.4. -/
theorem chaos_conflict_dist :
    vectorDistance [0.1, 0.9, 0.8, 0.2] [0.3, 0.7, 0.6, 0.4] = 0.4 := by
  unfold vectorDistance
  have hsum : ((([(0.1 : ℝ), 0.9, 0.8, 0.2].zip
      [(0.3 : ℝ), 0.7, 0.6, 0.4]).map (fun p => (p.1 - p.2) ^ 2)).sum) = 0.16 := by
    norm_num [List.zip]
  rw [hsum, show (0.16 : ℝ) = 0.4 ^ 2 by norm_num, Real.sqrt_sq (by norm_num)]

/-- C7 counterexample: the specification's Scenario B numbers are wrong for
the reference embeddings — the chaos→conflict raw distance is exactly 0.4
(not ≈ 0.346, off by more than 0.005) and the temporal residual is exactly
0.08 (not ≈ 0.069). -/
theorem scenarioB_claimed_values_false :
    vectorDistance [0.1, 0.9, 0.8, 0.2] [0.3, 0.7, 0.6, 0.4] = 0.4
    ∧ ¬(|vectorDistance [0.1, 0.9, 0.8, 0.2] [0.3, 0.7, 0.6, 0.4] - 0.346|
          < 0.005)
    ∧ temporalResidualFromDistance 0.4 5 = 0.08
    ∧ ¬(|temporalResidualFromDistance 0.4 5 - 0.069| < 0.005) := by
  have hd := chaos_conflict_dist
  have ht : temporalResidualFromDistance 0.4 5 = 0.08 := by
    unfold temporalResidualFromDistance
    rw [show (0.4 : ℝ) / 5 = 0.08 by norm_num, min_eq_right (by norm_num)]
  refine ⟨hd, ?_, ht, ?_⟩
  · rw [hd, abs_of_pos (show (0 : ℝ) < 0.4 - 0.346 by norm_num)]
    norm_num
  · rw [ht, abs_of_pos (show (0 : ℝ) < 0.08 - 0.069 by norm_num)]
    norm_num

/-- C7 amended: evaluating chaos→conflict with the reference embeddings gives
`rawDistance = 0.4` exactly, `temporalResidual = 0.08` exactly,
`logicResidual = 0`, and verdict VALID. -/
theorem scenarioB_amended :
    EMBEDDINGS "chaos" = some [0.1, 0.9, 0.8, 0.2]
    ∧ EMBEDDINGS "conflict" = some [0.3, 0.7, 0.6, 0.4]
    ∧ vectorDistance [0.1, 0.9, 0.8, 0.2] [0.3, 0.7, 0.6, 0.4] = 0.4
    ∧ temporalResidualFromDistance 0.4 5 = 0.08
    ∧ logicResidualFromRule (forbiddenTransition "chaos" "conflict") = 0
    ∧ verdictFromDivergence 0 0.08 (divergence 0 0.08 [] 0.6 0.4) = .VALID := by
  have hdiv_le : divergence 0 0.08 [] 0.6 0.4 ≤ 0.45 := by
    unfold divergence
    calc Real.sqrt (0.6 * (0 : ℝ) ^ 2 + 0.4 * (0.08 : ℝ) ^ 2
            + (([] : List (String × ℝ)).map (fun p => p.2 ^ 2 * 0.25)).sum)
        ≤ Real.sqrt 0.2025 := Real.sqrt_le_sqrt (by norm_num)
      _ = 0.45 := by
            rw [show (0.2025 : ℝ) = 0.45 ^ 2 by norm_num,
              Real.sqrt_sq (by norm_num)]
  refine ⟨rfl, rfl, chaos_conflict_dist, ?_, rfl, ?_⟩
  · unfold temporalResidualFromDistance
    rw [show (0.4 : ℝ) / 5 = 0.08 by norm_num, min_eq_right (by norm_num)]
  · unfold verdictFromDivergence
    rw [if_neg (by norm_num), if_neg (by push_neg; linarith),
      if_neg (by push_neg; linarith), if_neg (by push_neg; linarith)]

end DBT
